import Mathlib

/-!
Verification of the Xyphenore/web-server core against its design
specification.  The definitions below are shallow embeddings of the C++
sources: the thread-safe job queue (`src/unnamed/part_004` and
`src/unnamed/part_005`), the worker pool (`src/src/web-server/threads/pool.hpp`),
the worker loop (`src/src/web-server/threads/worker.hpp`, `src/unnamed/part_001`),
the HTTP request-line parser (`src/unnamed/part_014`,
`src/src/web-server/requests/version.cpp`, `src/src/web-server/requests/method.cpp`),
the response serializer (`src/src/web-server/requests/response.cpp`) and the
graceful socket close (`src/src/web-server/helpers/sockets.cpp`).
-/

namespace WebServer

/-- Decidable equality for `Except`, used to evaluate the embedded fallible
operations on concrete inputs. -/
instance {e a : Type} [DecidableEq e] [DecidableEq a] :
    DecidableEq (Except e a) := fun x y =>
  match x, y with
  | .ok u, .ok v =>
      if h : u = v then isTrue (by rw [h])
      else isFalse (by intro hc; cases hc; exact h rfl)
  | .error u, .error v =>
      if h : u = v then isTrue (by rw [h])
      else isFalse (by intro hc; cases hc; exact h rfl)
  | .ok _, .error _ => isFalse (by intro hc; cases hc)
  | .error _, .ok _ => isFalse (by intro hc; cases hc)

/-! ## Job queue (`Queue<T>` in `web_server::threads::queue`)

Two revisions of the queue are present in the repository.  The revision in
`src/unnamed/part_004` panics (aborts the process) on `push` or `close` after
close; the revision in `src/unnamed/part_005` throws the catchable
`QueueClosedException` instead.  Both have identical `pop` semantics. -/

/-- State of `Queue<T>`: the mutex-protected element list `elements_` and the
closed flag (`is_closed_` in part_004, `closed_` in part_005). -/
structure QueueState (T : Type) where
  elements : List T
  closed : Bool
deriving Repr, DecidableEq

/-- Condition-variable wake-up performed by an operation: `notify_one` after a
push, `notify_all` after a close. -/
inductive Wake where
  | one
  | all
deriving Repr, DecidableEq

/-- The operation recorded in a `QueueClosedException`
(`TriedOperations` in part_005). -/
inductive TriedOperation where
  | close
  | pop
  | push
deriving Repr, DecidableEq

/-- The catchable `QueueClosedException` of part_005, tagged with the attempted
operation. -/
inductive QueueExc where
  | queueClosed (op : TriedOperation)
deriving Repr, DecidableEq

/-- Result of one `pop` call, abstracting the condition-variable wait:
`popped` when an element is available, `queueClosedError` for the thrown
`QueueClosedException`, and `blocks` when the call waits on the condition
variable (queue empty and not closed). -/
inductive PopResult (T : Type) where
  | popped (element : T) (after : QueueState T)
  | queueClosedError
  | blocks
deriving Repr, DecidableEq

/-- `Queue<T>::pop` (part_004 lines 79-96, part_005 lines 92-115).  Both
revisions prefer draining the head element over reporting closure; with the
queue empty they throw `QueueClosedException` if the queue is closed and
otherwise wait on the condition variable. -/
def Queue.pop {T : Type} (s : QueueState T) : PopResult T :=
  match s.elements with
  | x :: rest => .popped x ⟨rest, s.closed⟩
  | [] => if s.closed then .queueClosedError else .blocks

/-- Result of `Queue<T>::push` in the part_004 revision: the push either
appends and notifies one waiter, or the process aborts via
`helpers::panic_due_to_logic_error` (a diagnostic on stderr followed by
`std::terminate`).  There is no blocking alternative: `push` never waits. -/
inductive Push004Result (T : Type) where
  | pushed (after : QueueState T) (wake : Wake)
  | fatalLogicError
deriving Repr, DecidableEq

/-- `Queue<T>::push` of part_004 (lines 64-77): panic when closed, otherwise
append `element` at the tail of `elements_` and `notify_one`. -/
def Queue.push004 {T : Type} (s : QueueState T) (x : T) : Push004Result T :=
  if s.closed then .fatalLogicError else .pushed ⟨s.elements ++ [x], s.closed⟩ .one

/-- `Queue<T>::push` of part_005 (lines 78-90): throw the catchable
`QueueClosedException` when closed, otherwise append at the tail and
`notify_one`. -/
def Queue.push005 {T : Type} (s : QueueState T) (x : T) :
    Except QueueExc (QueueState T × Wake) :=
  if s.closed then .error (.queueClosed .push)
  else .ok (⟨s.elements ++ [x], s.closed⟩, .one)

/-- Result of `Queue<T>::close` in the part_004 revision (lines 50-62): set the
flag and `notify_all`, or abort the process when the queue is already
closed. -/
inductive Close004Result (T : Type) where
  | closedQueue (after : QueueState T) (wake : Wake)
  | fatalLogicError
deriving Repr, DecidableEq

/-- `Queue<T>::close` of part_004 (lines 50-62). -/
def Queue.close004 {T : Type} (s : QueueState T) : Close004Result T :=
  if s.closed then .fatalLogicError else .closedQueue ⟨s.elements, true⟩ .all

/-- `Queue<T>::close` of part_005 (lines 65-76): throw `QueueClosedException`
when already closed, otherwise set the flag and `notify_all`. -/
def Queue.close005 {T : Type} (s : QueueState T) :
    Except QueueExc (QueueState T × Wake) :=
  if s.closed then .error (.queueClosed .close) else .ok (⟨s.elements, true⟩, .all)

/-- The queue-closing step of `WorkerPool::close` and `WorkerPool::~WorkerPool`
(`pool.hpp` lines 75-87 and 120-132): call `queue_.close()` and catch
`QueueClosedException`, doing nothing if the queue is already closed. -/
def WorkerPool.closeQueue {T : Type} (s : QueueState T) : QueueState T :=
  match Queue.close005 s with
  | .ok (s2, _) => s2
  | .error _ => s

/-- Claim C1: if the queue holds at least one element, `pop` removes and
returns the head element in FIFO order (also when the queue is already
closed, so elements enqueued before close are delivered after close);
`pop` blocks exactly when the queue is empty and not closed; and `pop`
fails with `QueueClosed` exactly when the queue is empty and closed. -/
theorem queue_pop_fifo_and_close_semantics {T : Type} (s : QueueState T) :
    (∀ x rest, s.elements = x :: rest → Queue.pop s = .popped x ⟨rest, s.closed⟩)
    ∧ (Queue.pop s = .blocks ↔ s.elements = [] ∧ s.closed = false)
    ∧ (Queue.pop s = .queueClosedError ↔ s.elements = [] ∧ s.closed = true) := by
  obtain ⟨els, cl⟩ := s
  refine ⟨?_, ?_, ?_⟩
  · intro x rest h
    simp only at h
    subst h
    rfl
  · cases els <;> cases cl <;> simp [Queue.pop]
  · cases els <;> cases cl <;> simp [Queue.pop]

/-- Witness for C1 at a concrete queue: a closed queue still delivers its
head element in FIFO order. -/
theorem queue_pop_fifo_witness :
    Queue.pop (⟨[1, 2], true⟩ : QueueState Nat) = .popped 1 ⟨[2], true⟩ :=
  (queue_pop_fifo_and_close_semantics ⟨[1, 2], true⟩).1 1 [2] rfl

/-- Counterexample for C6: a redundant second `close()` on the queue itself is
not silent.  The part_005 revision throws the catchable
`QueueClosedException`, and the part_004 revision aborts the process with a
logic-error diagnostic; neither returns normally. -/
theorem queue_double_close_counterexample :
    Queue.close005 (⟨[], true⟩ : QueueState Nat) = .error (.queueClosed .close)
    ∧ Queue.close004 (⟨[], true⟩ : QueueState Nat) = .fatalLogicError :=
  ⟨rfl, rfl⟩

/-- Claim C6 (amended): a second `close()` on the queue itself raises
`QueueClosedException` (part_005) or aborts (part_004); the redundant close is
tolerated silently only at the `WorkerPool` level, whose `close()` and
destructor catch `QueueClosedException`, leaving the closed flag set and the
element list unchanged.  A first close on an open queue sets the flag and
wakes all waiters. -/
theorem queue_close_idempotence_amended {T : Type} (s : QueueState T) :
    (s.closed = true →
      Queue.close005 s = .error (.queueClosed .close)
      ∧ Queue.close004 s = .fatalLogicError
      ∧ WorkerPool.closeQueue s = s)
    ∧ (s.closed = false →
      Queue.close005 s = .ok (⟨s.elements, true⟩, .all)
      ∧ WorkerPool.closeQueue s = ⟨s.elements, true⟩)
    ∧ (WorkerPool.closeQueue s).closed = true
    ∧ (WorkerPool.closeQueue s).elements = s.elements := by
  obtain ⟨els, cl⟩ := s
  cases cl <;>
    simp [Queue.close005, Queue.close004, WorkerPool.closeQueue]

/-- Witness for C6 (amended) at a concrete closed queue: the pool-level close
silently absorbs the exception and leaves the state unchanged. -/
theorem queue_close_idempotence_witness :
    Queue.close005 (⟨[3], true⟩ : QueueState Nat) = .error (.queueClosed .close)
    ∧ Queue.close004 (⟨[3], true⟩ : QueueState Nat) = .fatalLogicError
    ∧ WorkerPool.closeQueue (⟨[3], true⟩ : QueueState Nat) = ⟨[3], true⟩ :=
  (queue_close_idempotence_amended ⟨[3], true⟩).1 rfl

/-- Counterexample for C7: in the part_005 revision, `push` on a closed queue
throws the catchable `QueueClosedException` instead of printing a diagnostic
and aborting the process. -/
theorem queue_push_after_close_counterexample :
    Queue.push005 (⟨[], true⟩ : QueueState Nat) 0 = .error (.queueClosed .push) :=
  rfl

/-- Claim C7 (amended): `push` on an open queue appends the element at the
tail, wakes one waiter, and never blocks (the result type of the embedded
`push` has no blocking alternative, matching the source, which only takes the
mutex).  `push` on a closed queue is a fatal logic error in the part_004
revision (diagnostic plus process abort) but throws the catchable
`QueueClosedException` in the part_005 revision. -/
theorem queue_push_semantics_amended {T : Type} (s : QueueState T) (x : T) :
    (s.closed = false →
      Queue.push004 s x = .pushed ⟨s.elements ++ [x], false⟩ .one
      ∧ Queue.push005 s x = .ok (⟨s.elements ++ [x], false⟩, .one))
    ∧ (s.closed = true →
      Queue.push004 s x = .fatalLogicError
      ∧ Queue.push005 s x = .error (.queueClosed .push)) := by
  obtain ⟨els, cl⟩ := s
  cases cl <;> simp [Queue.push004, Queue.push005]

/-- Witness for C7 (amended) at a concrete open queue. -/
theorem queue_push_semantics_witness :
    Queue.push004 (⟨[5], false⟩ : QueueState Nat) 6 = .pushed ⟨[5, 6], false⟩ .one
    ∧ Queue.push005 (⟨[5], false⟩ : QueueState Nat) 6 = .ok (⟨[5, 6], false⟩, .one) :=
  (queue_push_semantics_amended ⟨[5], false⟩ 6).1 rfl



/-! ## Worker pool shutdown (`pool.hpp` lines 75-87 and 120-132,
`worker.hpp` lines 110-128)

After `close()` has set the closed flag, no further `push` is possible
(a push would panic or throw), so the post-close system is the queue state
plus the worker threads, each of which repeatedly pops.  `stepWorker`
performs one scheduled `pop` attempt of one worker: a running worker drains
the head element if there is one, and exits its loop on the resulting
`QueueClosed` once the queue is empty and closed.  A schedule is the order
in which the OS runs the workers. -/

/-- Interleaving state of the pool after `close`: the shared queue, which
workers are still running, and the log of executed jobs tagged with the id of
the worker that executed each one. -/
structure PoolExecState (J : Type) where
  queue : QueueState J
  running : List Bool
  log : List (Nat × J)
deriving Repr, DecidableEq

/-- Whether worker `i` is still running. -/
def runningAt (l : List Bool) (i : Nat) : Bool :=
  l.getD i false

/-- One scheduled `pop` attempt by worker `i` (the body of `Worker::serve`):
a running worker removes the head element and executes it, or, with the queue
empty and closed, receives `QueueClosed` and terminates; with the queue empty
and open it keeps waiting.  A terminated worker does nothing. -/
def stepWorker {J : Type} (s : PoolExecState J) (i : Nat) : PoolExecState J :=
  if runningAt s.running i then
    match s.queue.elements with
    | j :: rest => ⟨⟨rest, s.queue.closed⟩, s.running, s.log ++ [(i, j)]⟩
    | [] => if s.queue.closed then ⟨s.queue, s.running.set i false, s.log⟩ else s
  else s

/-- Run the workers under a schedule (the list of worker ids picked by the
OS scheduler, in order). -/
def runSched {J : Type} (s : PoolExecState J) (sched : List Nat) : PoolExecState J :=
  sched.foldl stepWorker s

/-- A schedule that gives each listed worker `k + 1` consecutive slots. -/
def drainSched (idxs : List Nat) (k : Nat) : List Nat :=
  (idxs.map (fun i => List.replicate (k + 1) i)).flatten

/-- The loop of `WorkerPool::close` and of the destructor:
`while (!workers_.empty()) { workers_.back().join(); workers_.pop_back(); }`,
returning the order in which the workers are joined. -/
def joinAllLoop {W : Type} : List W → List W
  | [] => []
  | w :: ws =>
    (w :: ws).getLast (List.cons_ne_nil w ws) :: joinAllLoop (w :: ws).dropLast
termination_by l => l.length
decreasing_by simp [List.length_dropLast]

/-- The final state reached when, after close, every worker is eventually
scheduled often enough (`jobs.length + 1` slots each, in worker-id order). -/
def poolDrainFinal {J : Type} (jobs : List J) (n : Nat) : PoolExecState J :=
  runSched ⟨⟨jobs, true⟩, List.replicate n true, []⟩
    (drainSched (List.range n) jobs.length)

theorem joinAllLoop_nil {W : Type} : joinAllLoop ([] : List W) = [] := by
  rw [joinAllLoop]

theorem joinAllLoop_ne_nil {W : Type} (ws : List W) (h : ws ≠ []) :
    joinAllLoop ws = ws.getLast h :: joinAllLoop ws.dropLast := by
  cases ws with
  | nil => exact absurd rfl h
  | cons w t => rw [joinAllLoop]

theorem joinAllLoop_eq_reverse {W : Type} (ws : List W) :
    joinAllLoop ws = ws.reverse := by
  induction ws using List.reverseRecOn with
  | nil => exact joinAllLoop_nil
  | append_singleton xs x ih =>
      rw [joinAllLoop_ne_nil (xs ++ [x]) (by simp)]
      simp [List.getLast_append, List.dropLast_concat, ih]

theorem stepWorker_not_running {J : Type} (s : PoolExecState J) (i : Nat)
    (h : runningAt s.running i = false) : stepWorker s i = s := by
  unfold stepWorker
  rw [h]
  rfl

theorem runSched_nil {J : Type} (s : PoolExecState J) : runSched s [] = s := rfl

theorem runSched_cons {J : Type} (s : PoolExecState J) (i : Nat) (sched : List Nat) :
    runSched s (i :: sched) = runSched (stepWorker s i) sched := rfl

theorem runSched_append {J : Type} (s : PoolExecState J) (a b : List Nat) :
    runSched s (a ++ b) = runSched (runSched s a) b :=
  List.foldl_append _ _ _ _

theorem stepWorker_conservation {J : Type} (s : PoolExecState J) (i : Nat) :
    (stepWorker s i).log.map Prod.snd ++ (stepWorker s i).queue.elements
      = s.log.map Prod.snd ++ s.queue.elements := by
  obtain ⟨⟨els, cl⟩, run, log⟩ := s
  cases els <;> cases cl <;> simp [stepWorker] <;> split <;> simp

theorem stepWorker_closed {J : Type} (s : PoolExecState J) (i : Nat) :
    (stepWorker s i).queue.closed = s.queue.closed := by
  obtain ⟨⟨els, cl⟩, run, log⟩ := s
  cases els <;> cases cl <;> simp [stepWorker] <;> split <;> simp

theorem runSched_conservation {J : Type} (s : PoolExecState J) (sched : List Nat) :
    (runSched s sched).log.map Prod.snd ++ (runSched s sched).queue.elements
      = s.log.map Prod.snd ++ s.queue.elements := by
  induction sched generalizing s with
  | nil => rfl
  | cons i rest ih =>
      rw [runSched_cons, ih, stepWorker_conservation]

theorem runSched_closed {J : Type} (s : PoolExecState J) (sched : List Nat) :
    (runSched s sched).queue.closed = s.queue.closed := by
  induction sched generalizing s with
  | nil => rfl
  | cons i rest ih => rw [runSched_cons, ih, stepWorker_closed]

theorem getD_set_false {l : List Bool} {i : Nat} :
    (l.set i false).getD i false = false := by
  induction l generalizing i with
  | nil => simp
  | cons b t ih =>
      cases i with
      | zero => simp
      | succ n => simpa using ih

theorem getD_set_ne {l : List Bool} {t j : Nat} (a : Bool) (h : t ≠ j) :
    (l.set t a).getD j false = l.getD j false := by
  induction l generalizing t j with
  | nil => simp
  | cons b rest ih =>
      cases t with
      | zero =>
          cases j with
          | zero => exact absurd rfl h
          | succ m => simp
      | succ n =>
          cases j with
          | zero => simp
          | succ m => simpa using ih (fun hh => h (by rw [hh]))

theorem set_getD_false_self {l : List Bool} {i : Nat} (h : l.getD i false = false) :
    l.set i false = l := by
  induction l generalizing i with
  | nil => simp
  | cons b t ih =>
      cases i with
      | zero =>
          simp only [List.getD_cons_zero] at h
          simp [h]
      | succ n => simpa using ih (by simpa using h)

theorem runSched_replicate_terminated {J : Type} (s : PoolExecState J) (i m : Nat)
    (h : runningAt s.running i = false) :
    runSched s (List.replicate m i) = s := by
  induction m with
  | zero => rfl
  | succ k ih =>
      rw [List.replicate_succ, runSched_cons, stepWorker_not_running s i h]
      exact ih

theorem runSched_self_drain {J : Type} (i : Nat) :
    ∀ (es : List J) (s : PoolExecState J), s.queue.elements = es →
      s.queue.closed = true → runningAt s.running i = true →
      runSched s (List.replicate (es.length + 1) i)
        = ⟨⟨[], true⟩, s.running.set i false, s.log ++ es.map (fun j => (i, j))⟩ := by
  intro es
  induction es with
  | nil =>
      intro s h1 h2 h3
      have hq : s.queue = ⟨[], true⟩ := by
        rw [← h1, ← h2]
      have hstep : stepWorker s i = ⟨s.queue, s.running.set i false, s.log⟩ := by
        simp [stepWorker, h3, h1, h2]
      rw [show List.replicate (List.length ([] : List J) + 1) i = [i] from rfl,
          runSched_cons, runSched_nil, hstep, hq]
      simp
  | cons j rest ih =>
      intro s h1 h2 h3
      have hstep : stepWorker s i
          = ⟨⟨rest, s.queue.closed⟩, s.running, s.log ++ [(i, j)]⟩ := by
        simp [stepWorker, h3, h1]
      rw [show List.replicate (List.length (j :: rest) + 1) i
            = i :: List.replicate (rest.length + 1) i from rfl,
          runSched_cons, hstep,
          ih ⟨⟨rest, s.queue.closed⟩, s.running, s.log ++ [(i, j)]⟩ rfl h2 h3]
      simp [h2]

theorem runSched_empty_drain {J : Type} (s : PoolExecState J) (i m : Nat)
    (h2 : s.queue.closed = true) (h1 : s.queue.elements = []) :
    runSched s (List.replicate (m + 1) i)
      = ⟨s.queue, s.running.set i false, s.log⟩ := by
  have hstep : stepWorker s i = ⟨s.queue, s.running.set i false, s.log⟩ := by
    by_cases hr : runningAt s.running i = true
    · simp [stepWorker, hr, h1, h2]
    · have hr2 : runningAt s.running i = false := by simpa using hr
      rw [stepWorker_not_running s i hr2]
      have hset : s.running.set i false = s.running := set_getD_false_self hr2
      rw [hset]
  rw [List.replicate_succ, runSched_cons, hstep]
  exact runSched_replicate_terminated _ i m getD_set_false

theorem runSched_drain_rest {J : Type} (k : Nat) :
    ∀ (idxs : List Nat) (s : PoolExecState J), s.queue.closed = true →
      s.queue.elements = [] →
      runSched s (drainSched idxs k)
        = ⟨s.queue, idxs.foldl (fun r t => r.set t false) s.running, s.log⟩ := by
  intro idxs
  induction idxs with
  | nil =>
      intro s h2 h1
      rfl
  | cons i rest ih =>
      intro s h2 h1
      have hsplit : drainSched (i :: rest) k
          = List.replicate (k + 1) i ++ drainSched rest k := by
        simp [drainSched]
      rw [hsplit, runSched_append, runSched_empty_drain s i k h2 h1,
          ih ⟨s.queue, s.running.set i false, s.log⟩ h2 h1]
      rfl

theorem runSched_drain {J : Type} (s : PoolExecState J) (i : Nat) (rest : List Nat)
    (h2 : s.queue.closed = true) (h3 : runningAt s.running i = true) :
    runSched s (drainSched (i :: rest) s.queue.elements.length)
      = ⟨⟨[], true⟩,
          rest.foldl (fun r t => r.set t false) (s.running.set i false),
          s.log ++ s.queue.elements.map (fun j => (i, j))⟩ := by
  have hsplit : drainSched (i :: rest) s.queue.elements.length
      = List.replicate (s.queue.elements.length + 1) i
        ++ drainSched rest s.queue.elements.length := by
    simp [drainSched]
  rw [hsplit, runSched_append,
      runSched_self_drain i s.queue.elements s rfl h2 h3,
      runSched_drain_rest s.queue.elements.length rest _ rfl rfl]

theorem foldl_set_false_preserve (idxs : List Nat) (l : List Bool) (j : Nat)
    (h : l.getD j false = false) :
    (idxs.foldl (fun r t => r.set t false) l).getD j false = false := by
  induction idxs generalizing l with
  | nil => exact h
  | cons t rest ih =>
      rw [List.foldl_cons]
      apply ih
      by_cases htj : t = j
      · subst htj
        exact getD_set_false
      · rw [getD_set_ne false htj]
        exact h

theorem foldl_set_false_mem (idxs : List Nat) (l : List Bool) (j : Nat)
    (h : j ∈ idxs) :
    (idxs.foldl (fun r t => r.set t false) l).getD j false = false := by
  induction idxs generalizing l with
  | nil => cases h
  | cons t rest ih =>
      rw [List.foldl_cons]
      rcases List.mem_cons.mp h with h1 | h1
      · subst h1
        exact foldl_set_false_preserve rest _ j getD_set_false
      · exact ih _ h1

theorem worker_pool_closeQueue_closed {T : Type} (q : QueueState T) :
    (WorkerPool.closeQueue q).closed = true := by
  obtain ⟨e, c⟩ := q
  cases c <;> simp [WorkerPool.closeQueue, Queue.close005]

/-- Claim C2: after `WorkerPool::close` (or the destructor, which runs the same
code), the queue is closed; under the post-close step semantics no job is lost
or duplicated by any schedule; when every worker is eventually scheduled (the
canonical drain schedule with `jobs.length + 1` slots per worker), the queue
drains completely, every worker terminates (so `join` returns for each of
them), and the executed-job log equals the jobs that were pushed before the
close, each executed exactly once, in FIFO order; and the pool joins its
workers in reverse creation order (`workers_.back().join(); pop_back()`). -/
theorem worker_pool_clean_shutdown {J : Type} (jobs : List J) (n : Nat)
    (h : 0 < n) :
    (∀ q : QueueState J, (WorkerPool.closeQueue q).closed = true)
    ∧ (∀ (s : PoolExecState J) (sched : List Nat),
        (runSched s sched).log.map Prod.snd ++ (runSched s sched).queue.elements
          = s.log.map Prod.snd ++ s.queue.elements)
    ∧ (poolDrainFinal jobs n).queue.elements = []
    ∧ (∀ j, j < n → runningAt (poolDrainFinal jobs n).running j = false)
    ∧ (poolDrainFinal jobs n).log.map Prod.snd = jobs
    ∧ (∀ ws : List Nat, joinAllLoop ws = ws.reverse) := by
  obtain ⟨m, rfl⟩ : ∃ m, n = m + 1 := ⟨n - 1, by omega⟩
  have hrange : List.range (m + 1) = 0 :: (List.range m).map Nat.succ :=
    List.range_succ_eq_map m
  have hdrain := runSched_drain (J := J)
      ⟨⟨jobs, true⟩, List.replicate (m + 1) true, []⟩ 0
      ((List.range m).map Nat.succ) rfl rfl
  have hfinal : poolDrainFinal jobs (m + 1)
      = ⟨⟨[], true⟩,
          ((List.range m).map Nat.succ).foldl (fun r t => r.set t false)
            ((List.replicate (m + 1) true).set 0 false),
          jobs.map (fun j => (0, j))⟩ := by
    unfold poolDrainFinal
    rw [hrange]
    simpa using hdrain
  refine ⟨worker_pool_closeQueue_closed, runSched_conservation, ?_, ?_, ?_,
    joinAllLoop_eq_reverse⟩
  · rw [hfinal]
  · intro j hj
    rw [hfinal]
    cases j with
    | zero =>
        exact foldl_set_false_preserve _ _ 0 getD_set_false
    | succ t =>
        apply foldl_set_false_mem
        simp only [List.mem_map, List.mem_range]
        exact ⟨t, by omega, rfl⟩
  · rw [hfinal]
    simp

/-- Witness for C2: two workers drain the two jobs pushed before close,
exactly once each and in FIFO order. -/
theorem worker_pool_clean_shutdown_witness :
    0 < 2 ∧ (poolDrainFinal ([7, 8] : List Nat) 2).log.map Prod.snd = [7, 8] :=
  ⟨by decide,
    (worker_pool_clean_shutdown ([7, 8] : List Nat) 2 (by decide)).2.2.2.2.1⟩

/-! ## HTTP data types and the request line
(`src/unnamed/part_014`, `src/src/web-server/requests/version.cpp`,
`src/src/web-server/requests/method.cpp`, `src/src/web-server/requests/status.cpp`) -/

/-- ASCII uppercasing, `helpers::to_uppercase` (`helpers/string.cpp`):
`std::toupper` with the default locale applied to every character. -/
def uppercase (s : List Char) : List Char :=
  s.map Char.toUpper

/-- `Version` (`requests/version.cpp` lines 19-35): the four supported HTTP
versions. -/
inductive Version where
  | http1
  | http11
  | http2
  | http3
deriving Repr, DecidableEq

/-- The stream-output form of a `Version` (version.cpp lines 19-35): the
version string passed through `helpers::to_uppercase`. -/
def Version.print : Version → List Char
  | .http1 => uppercase (("HTTP/1").toList)
  | .http11 => uppercase (("HTTP/1.1").toList)
  | .http2 => uppercase (("HTTP/2").toList)
  | .http3 => uppercase (("HTTP/3").toList)

/-- `InvalidHTTPVersionError` (version.cpp lines 14-17), carrying the
offending version string. -/
inductive VersionError where
  | invalidHTTPVersion (version : List Char)
deriving Repr, DecidableEq

/-- `to_version` (version.cpp lines 37-51): look the uppercased input up among
the keys of `ALLOWED_VERSIONS` (the uppercased printed forms of the four
versions); on `std::out_of_range`, throw `InvalidHTTPVersionError`. -/
def to_version (s : List Char) : Except VersionError Version :=
  if uppercase s = Version.print .http1 then .ok .http1
  else if uppercase s = Version.print .http11 then .ok .http11
  else if uppercase s = Version.print .http2 then .ok .http2
  else if uppercase s = Version.print .http3 then .ok .http3
  else .error (.invalidHTTPVersion s)

/-- `Method::Verb` (method.cpp): the nine accepted verbs. -/
inductive Verb where
  | get
  | post
  | update
  | patch
  | delete
  | head
  | options
  | trace
  | connect
deriving Repr, DecidableEq

/-- The stream-output form of a `Verb` (method.cpp lines 76-97), an uppercase
literal passed through `helpers::to_uppercase`. -/
def Verb.print : Verb → List Char
  | .get => uppercase (("GET").toList)
  | .post => uppercase (("POST").toList)
  | .update => uppercase (("UPDATE").toList)
  | .patch => uppercase (("PATCH").toList)
  | .delete => uppercase (("DELETE").toList)
  | .head => uppercase (("HEAD").toList)
  | .options => uppercase (("OPTIONS").toList)
  | .trace => uppercase (("TRACE").toList)
  | .connect => uppercase (("CONNECT").toList)

/-- The alternation order of the verbs in `FIRST_LINE_REGEX`
(part_014 lines 38-48). -/
def verbAlternatives : List Verb :=
  [.get, .post, .update, .patch, .delete, .head, .options, .trace, .connect]

/-- Case-insensitive match of a literal regex fragment (the `icase` flag of
`FIRST_LINE_REGEX`): consume the characters of `pat` from the front of `s`,
returning the consumed input characters and the remainder. -/
def matchLiteralCI : List Char → List Char → Option (List Char × List Char)
  | [], s => some ([], s)
  | _ :: _, [] => none
  | p :: ps, c :: cs =>
      if c.toUpper = p.toUpper then
        (matchLiteralCI ps cs).map (fun r => (c :: r.1, r.2))
      else none

/-- First match over the verb alternation `(GET|POST|UPDATE|...)` of
`FIRST_LINE_REGEX`.  No verb is a case-insensitive prefix of another, so at
most one alternative can match at the start of the input. -/
def matchVerb (s : List Char) : Option (Verb × List Char × List Char) :=
  verbAlternatives.foldr
    (fun v acc =>
      match matchLiteralCI v.print s with
      | some r => some (v, r.1, r.2)
      | none => acc)
    none

/-- The regex character class `[^ ]`. -/
def isNotSpace (c : Char) : Bool :=
  decide (c ≠ ' ')

/-- The regex metacharacter `.` in `std::regex` ECMAScript mode: any single
character except the line terminators CR and LF. -/
def dotChar (c : Char) : Bool :=
  !(c == '\r') && !(c == '\n')

/-- The inner alternation `(?:1.1|(?:[1-3](?:.0)?))` of the version
sub-pattern of `FIRST_LINE_REGEX`, exactly as written in part_014 line 36:
the dots are not escaped, so each `.` matches any single character other
than a line terminator. -/
def versionCore (s : List Char) : Bool :=
  match s with
  | ['1', c, '1'] => dotChar c
  | [d] => d == '1' || d == '2' || d == '3'
  | [d, c, '0'] => (d == '1' || d == '2' || d == '3') && dotChar c
  | _ => false

/-- Capture 3 of `FIRST_LINE_REGEX`, `(HTTP/(?:1.1|(?:[1-3](?:.0)?)))`: the
literal `HTTP/` (case-insensitive under `icase`) followed by
`versionCore`. -/
def versionTokenOK (s : List Char) : Bool :=
  match s with
  | h1 :: h2 :: h3 :: h4 :: slash :: core =>
      (h1.toUpper == 'H') && (h2.toUpper == 'T') && (h3.toUpper == 'T')
        && (h4.toUpper == 'P') && (slash == '/') && versionCore core
  | _ => false

/-- After the second space the regex requires the version sub-pattern
followed immediately by the literal `\r\n` (anything may follow, since
`regex_search` does not anchor the end).  The version token is 6 or 8
characters long, and at most one of the two lengths can succeed. -/
def splitVersion (s : List Char) : Option (List Char) :=
  if versionTokenOK (s.take 8) && ((s.drop 8).take 2 == ['\r', '\n']) then
    some (s.take 8)
  else if versionTokenOK (s.take 6) && ((s.drop 6).take 2 == ['\r', '\n']) then
    some (s.take 6)
  else none

/-- A successful `regex_search(content, match, FIRST_LINE_REGEX)`
(part_014 lines 34-52): the verb alternative that matched together with the
raw matched characters (capture 1), the URI (capture 2), and the version
token (capture 3). -/
structure FirstLineMatch where
  verb : Verb
  verbRaw : List Char
  uri : List Char
  versionRaw : List Char
deriving Repr, DecidableEq


/-- Modelled from the spec: `Method::URI::REGEX_STRING` is declared in a
method header that is absent from `src/`; section 3 of the spec gives the URI
pattern `(?:/[^ ]*)+` (full match), whose language is exactly the space-free
strings beginning with `/`. -/
def uriOK (s : List Char) : Bool :=
  match s with
  | '/' :: _ => s.all isNotSpace
  | _ => false

/-- Capture 2 (`/[^ ]*(?:/[^ ]*)*`) followed by the literal space and the
version sub-pattern: because every character of the URI group is from
`[^ ]` and the character after the group must be a literal space, the URI is
forced to be the maximal space-free run, which must start with `/`. -/
def parseURIVersion (v : Verb) (raw rest2 : List Char) : Option FirstLineMatch :=
  if uriOK (rest2.takeWhile isNotSpace) then
    match rest2.dropWhile isNotSpace with
    | ' ' :: rest3 =>
        (splitVersion rest3).map (fun ver => ⟨v, raw, rest2.takeWhile isNotSpace, ver⟩)
    | _ => none
  else none

/-- The part of `FIRST_LINE_REGEX` after capture 1: a literal space, then the
URI group, a literal space, the version group and `\r\n`. -/
def afterVerb (v : Verb) (raw rest : List Char) : Option FirstLineMatch :=
  match rest with
  | ' ' :: rest2 => parseURIVersion v raw rest2
  | _ => none

/-- `regex_search` with `FIRST_LINE_REGEX` (anchored at the start by `^`). -/
def matchFirstLine (content : List Char) : Option FirstLineMatch :=
  match matchVerb content with
  | some (v, raw, rest) => afterVerb v raw rest
  | none => none

/-- Errors thrown while building a `Request` from the first line:
`InvalidHTTPRequestError` (part_014 lines 91-97), `InvalidVerbError` and
`InvalidURIError` (method.cpp), `InvalidHTTPVersionError` (version.cpp). -/
inductive RequestError where
  | invalidHTTPRequest (content : List Char)
  | invalidVerb (verb : List Char)
  | invalidURI (uri : List Char)
  | invalidHTTPVersion (version : List Char)
deriving Repr, DecidableEq

/-- `to_verb` (method.cpp lines 61-68): look the uppercased verb up in
`ALLOWED_VERBS`, whose keys are the uppercased printed verbs; throw
`InvalidVerbError` when absent. -/
def to_verb (s : List Char) : Except RequestError Verb :=
  match verbAlternatives.find? (fun v => v.print == uppercase s) with
  | some v => .ok v
  | none => .error (.invalidVerb s)

/-- `Method::URI::URI` (method.cpp lines 70-74): `regex_match` against
`URI_REGEX`; throw `InvalidURIError` on failure. -/
def to_uri (s : List Char) : Except RequestError (List Char) :=
  if uriOK s then .ok s else .error (.invalidURI s)

/-- The fields of the `Request` built by `Request::from`. -/
structure ParsedRequest where
  verb : Verb
  uri : List Char
  version : Version
deriving Repr, DecidableEq

/-- `Request::from` (part_014 lines 99-118) for content within the read
limit: run `regex_search` with `FIRST_LINE_REGEX`; on failure throw
`InvalidHTTPRequestError`; on success build the `Request` from
`to_verb(match 1)`, `to_uri(match 2)` and `to_version(match 3)`, propagating
whichever of their exceptions fires (all three succeed or exactly one family
of error applies on the inputs used in this development, so the C++
evaluation order of the three calls is immaterial here). -/
def Request.fromContent (content : List Char) :
    Except RequestError ParsedRequest :=
  match matchFirstLine content with
  | none => .error (.invalidHTTPRequest content)
  | some m =>
      match to_verb m.verbRaw with
      | .error e => .error e
      | .ok v =>
          match to_uri m.uri with
          | .error e => .error e
          | .ok u =>
              match to_version m.versionRaw with
              | .error (.invalidHTTPVersion ve) => .error (.invalidHTTPVersion ve)
              | .ok ver => .ok ⟨v, u, ver⟩

/-- The framing `"{verb} {uri} {version}\r\n"` of a request line from its
three components (spec section 8, property 4). -/
def renderLine (v : Verb) (uri : List Char) (ver : Version) : List Char :=
  Verb.print v ++ (' ' :: (uri ++ (' ' :: (Version.print ver ++ ['\r', '\n']))))

theorem to_version_print (v : Version) : to_version (Version.print v) = .ok v := by
  cases v <;> decide

theorem to_verb_print (v : Verb) : to_verb (Verb.print v) = .ok v := by
  cases v <;> decide

theorem splitVersion_print (ver : Version) :
    splitVersion (Version.print ver ++ ['\r', '\n']) = some (Version.print ver) := by
  cases ver <;> rfl

theorem matchVerb_render (v : Verb) (tail : List Char) :
    matchVerb (Verb.print v ++ tail) = some (v, Verb.print v, tail) := by
  cases v <;> rfl

theorem uriOK_all (s : List Char) (h : uriOK s = true) : s.all isNotSpace = true := by
  unfold uriOK at h
  split at h
  · exact h
  · cases h

theorem takeWhile_uri (uri r : List Char) (hall : uri.all isNotSpace = true) :
    (uri ++ ' ' :: r).takeWhile isNotSpace = uri := by
  induction uri with
  | nil => rfl
  | cons c t ih =>
      rw [List.all_cons, Bool.and_eq_true] at hall
      simp [List.takeWhile_cons, hall.1, ih hall.2]

theorem dropWhile_uri (uri r : List Char) (hall : uri.all isNotSpace = true) :
    (uri ++ ' ' :: r).dropWhile isNotSpace = ' ' :: r := by
  induction uri with
  | nil => rfl
  | cons c t ih =>
      rw [List.all_cons, Bool.and_eq_true] at hall
      simp [List.dropWhile_cons, hall.1, ih hall.2]

theorem matchFirstLine_render (v : Verb) (uri : List Char) (ver : Version)
    (h : uriOK uri = true) :
    matchFirstLine (renderLine v uri ver)
      = some ⟨v, Verb.print v, uri, Version.print ver⟩ := by
  have hall : uri.all isNotSpace = true := uriOK_all uri h
  unfold renderLine matchFirstLine
  rw [matchVerb_render]
  show parseURIVersion v (Verb.print v)
      (uri ++ (' ' :: (Version.print ver ++ ['\r', '\n']))) = _
  unfold parseURIVersion
  rw [takeWhile_uri uri _ hall, dropWhile_uri uri _ hall, h]
  simp only [if_true]
  rw [splitVersion_print ver]
  rfl

/-- Claim C10: parsing the printed form of each of the four `Version` values
yields the value back; parsing succeeds exactly when the ASCII-uppercased
input equals a printed form (so parsing is ASCII case-insensitive); and every
other string is rejected with `InvalidHTTPVersionError` -- including
`HTTP/1.0`, `HTTP/2.0` and `HTTP/3.0`, which the wire-level request-line
regex admits as version tokens. -/
theorem version_parse_round_trip_case_insensitive :
    (∀ v, to_version (Version.print v) = .ok v)
    ∧ (∀ s v, to_version s = .ok v ↔ uppercase s = Version.print v)
    ∧ to_version (("HTTP/1.0").toList)
        = .error (.invalidHTTPVersion (("HTTP/1.0").toList))
    ∧ to_version (("HTTP/2.0").toList)
        = .error (.invalidHTTPVersion (("HTTP/2.0").toList))
    ∧ to_version (("HTTP/3.0").toList)
        = .error (.invalidHTTPVersion (("HTTP/3.0").toList))
    ∧ versionTokenOK (("HTTP/1.0").toList) = true
    ∧ versionTokenOK (("HTTP/2.0").toList) = true
    ∧ versionTokenOK (("HTTP/3.0").toList) = true := by
  refine ⟨to_version_print, ?_, by decide, by decide, by decide,
    by decide, by decide, by decide⟩
  intro s v
  constructor
  · intro h
    unfold to_version at h
    split_ifs at h with h1 h2 h3 h4
    · cases h; exact h1
    · cases h; exact h2
    · cases h; exact h3
    · cases h; exact h4
  · intro h
    unfold to_version
    cases v
    · rw [h, if_pos rfl]
    · rw [h, if_neg (by decide), if_pos rfl]
    · rw [h, if_neg (by decide), if_neg (by decide), if_pos rfl]
    · rw [h, if_neg (by decide), if_neg (by decide), if_neg (by decide),
        if_pos rfl]

/-- Counterexample for C3: the request line `GET / HTTP/1.0\r\n` is inside
the accepted request-line grammar (the regex matches, with version token
`HTTP/1.0`), yet reading it does not produce a `Request` and does not raise
`InvalidHTTPRequest`: `to_version` rejects the token and
`InvalidHTTPVersionError` is raised instead. -/
theorem request_line_round_trip_counterexample :
    (matchFirstLine (("GET / HTTP/1.0\r\n").toList)).isSome = true
    ∧ Request.fromContent (("GET / HTTP/1.0\r\n").toList)
        = .error (.invalidHTTPVersion (("HTTP/1.0").toList)) :=
  ⟨by decide, by decide⟩

/-- Claim C3 (amended): for every verb, every URI in the URI language and
every version among the four values accepted by `to_version`, framing
`"{verb} {uri} {version}\r\n"` yields a `Request` whose fields equal the
inputs; and every input on which the first-line regex fails raises
`InvalidHTTPRequest`.  (Inputs the regex accepts whose version token is not
one of the four supported versions -- such as `HTTP/1.0` -- instead raise
`InvalidHTTPVersionError`; see the counterexample.) -/
theorem request_line_round_trip_amended (v : Verb) (uri : List Char)
    (ver : Version) (h : uriOK uri = true) :
    Request.fromContent (renderLine v uri ver) = .ok ⟨v, uri, ver⟩
    ∧ (∀ content, matchFirstLine content = none →
        Request.fromContent content = .error (.invalidHTTPRequest content)) := by
  constructor
  · have hml := matchFirstLine_render v uri ver h
    unfold Request.fromContent
    rw [hml]
    simp only [to_verb_print, to_version_print, to_uri, h, if_true]
  · intro content hc
    unfold Request.fromContent
    rw [hc]

/-- Witness for C3 (amended) at a concrete request line. -/
theorem request_line_round_trip_witness :
    uriOK (("/index").toList) = true
    ∧ Request.fromContent (renderLine .get (("/index").toList) .http11)
        = .ok ⟨.get, ("/index").toList, .http11⟩ :=
  ⟨by decide,
    (request_line_round_trip_amended .get (("/index").toList) .http11 (by decide)).1⟩

/-! ## Status and the too-big rejection (`requests/status.cpp`,
part_014 lines 54-82) -/

/-- `Status` (`requests/status.cpp`; the numeric codes are those of the
`Status` class in `requests/status.hpp` and of the spec). -/
inductive Status where
  | ok
  | notFound
  | unprocessableContent
deriving Repr, DecidableEq

/-- The numeric code of a status (`fmt::enums::format_as`). -/
def Status.code : Status → Nat
  | .ok => 200
  | .notFound => 404
  | .unprocessableContent => 422

/-- The phrase literal of the stream output of `Status`
(status.cpp lines 15-19). -/
def Status.phrase : Status → List Char
  | .ok => ("OK").toList
  | .notFound => ("NOT FOUND").toList
  | .unprocessableContent => ("UNPROCESSABLE CONTENT").toList

/-- The stream-output form of a `Status` (status.cpp lines 12-29):
`"{code} {PHRASE}"`, the phrase passed through `to_uppercase`. -/
def Status.print (st : Status) : List Char :=
  Nat.toDigits 10 st.code ++ ' ' :: uppercase st.phrase

/-- Outcome of the too-big branch of `read` (part_014 lines 54-82), the
branch taken when `asio::read_until` reports a size at or above the buffer
capacity. -/
inductive ReadTooBigResult where
  | invalidHTTPRequest (content : List Char)
  | messagePartiallySentAfterClose (missing : Nat) (written : List Char)
  | receiveTooBigAfterClose (written : List Char)
deriving Repr, DecidableEq

/-- The 422 line `fmt::format("{} {}\r\n\r\n", version,
Status::UnprocessableContent)` built by the too-big branch
(part_014 line 66). -/
def errorResponseLine (versionRaw : List Char) : List Char :=
  versionRaw ++ (' ' :: (Status.print .unprocessableContent ++ ("\r\n\r\n").toList))

/-- The too-big branch of `read` (part_014 lines 58-78): `regex_search` the
first-line regex against what was read; on failure throw
`InvalidHTTPRequestError` (nothing is written and the stream is not closed);
on success write the 422 line with the parsed version token (capture 3),
close the stream, and throw `ReceiveTooBigMessageError` -- or
`MessagePartiallySentError` with the missing byte count when `asio::write`
reported fewer bytes (`sentSize`). -/
def readTooBigBranch (content : List Char) (sentSize : Nat) : ReadTooBigResult :=
  match matchFirstLine content with
  | none => .invalidHTTPRequest content
  | some m =>
      if (errorResponseLine m.versionRaw).length > sentSize then
        .messagePartiallySentAfterClose
          ((errorResponseLine m.versionRaw).length - sentSize)
          (errorResponseLine m.versionRaw)
      else .receiveTooBigAfterClose (errorResponseLine m.versionRaw)

/-- Counterexample for C5: an oversized read whose content does not match the
first-line regex (here `AAAA`) makes the too-big branch throw
`InvalidHTTPRequestError` without writing anything; it does not fall back to
`HTTP/1.1`, does not send the well-formed 422 line, and does not raise
`ReceiveTooBigMessage`. -/
theorem too_big_rejection_counterexample :
    readTooBigBranch (("AAAA").toList) 37 = .invalidHTTPRequest (("AAAA").toList)
    ∧ errorResponseLine (("HTTP/1.1").toList)
        = ("HTTP/1.1 422 UNPROCESSABLE CONTENT\r\n\r\n").toList :=
  ⟨by decide, by decide⟩

/-- Claim C5 (amended): when the request line exceeds the read limit, the
whole first-line regex is matched against what was read; if it matches, the
server writes exactly `"{version} 422 UNPROCESSABLE CONTENT\r\n\r\n"` with
the matched version token, closes the connection and raises
`ReceiveTooBigMessage` (or `MessagePartiallySent`, also after closing, when
the write reports fewer bytes); if it does not match, it raises
`InvalidHTTPRequest` without writing anything.  `HTTP/1.1` is never
synthesized as a fallback version. -/
theorem too_big_rejection_amended (content : List Char) (sent : Nat) :
    (matchFirstLine content = none →
      readTooBigBranch content sent = .invalidHTTPRequest content)
    ∧ (∀ m, matchFirstLine content = some m →
        sent = (errorResponseLine m.versionRaw).length →
        readTooBigBranch content sent
          = .receiveTooBigAfterClose (errorResponseLine m.versionRaw))
    ∧ (∀ m, matchFirstLine content = some m →
        sent < (errorResponseLine m.versionRaw).length →
        readTooBigBranch content sent
          = .messagePartiallySentAfterClose
              ((errorResponseLine m.versionRaw).length - sent)
              (errorResponseLine m.versionRaw)) := by
  refine ⟨?_, ?_, ?_⟩
  · intro h
    unfold readTooBigBranch
    rw [h]
  · intro m hm hs
    unfold readTooBigBranch
    rw [hm]
    subst hs
    simp
  · intro m hm hs
    unfold readTooBigBranch
    rw [hm]
    simp [gt_iff_lt, hs]

/-- Witness for C5 (amended) at a concrete oversized request line. -/
theorem too_big_rejection_witness :
    matchFirstLine (("GET / HTTP/1.1\r\n").toList)
      = some ⟨.get, ("GET").toList, ("/").toList, ("HTTP/1.1").toList⟩
    ∧ readTooBigBranch (("GET / HTTP/1.1\r\n").toList)
        (errorResponseLine (("HTTP/1.1").toList)).length
      = .receiveTooBigAfterClose (errorResponseLine (("HTTP/1.1").toList)) :=
  ⟨by decide,
    (too_big_rejection_amended (("GET / HTTP/1.1\r\n").toList)
        (errorResponseLine (("HTTP/1.1").toList)).length).2.1
      ⟨.get, ("GET").toList, ("/").toList, ("HTTP/1.1").toList⟩ (by decide) rfl⟩

/-! ## Response serialization and graceful close
(`requests/response.cpp` lines 116-132, `helpers/sockets.cpp` lines 12-31) -/

/-- The three socket operations of a graceful close. -/
inductive CloseAction where
  | shutdownSend
  | drainReceive
  | closeSocket
deriving Repr, DecidableEq

/-- What the drain (`asio::read` into a dynamic buffer) ends with:
`asio::error::eof` on a clean peer close, or another error code. -/
inductive DrainOutcome where
  | eof
  | otherError (code : Nat)
deriving Repr, DecidableEq

/-- `helpers::close` (`helpers/sockets.cpp` lines 12-31): return at once on a
stream that is not open; otherwise shut down the send half, drain the
receive half, treat `eof` as the normal end signal and close the socket, and
rethrow any other drain error (second component `true` when the error
propagates, in which case the final `close` is not reached). -/
def helpersClose (isOpen : Bool) (drain : DrainOutcome) :
    List CloseAction × Bool :=
  if isOpen then
    match drain with
    | .eof => ([.shutdownSend, .drainReceive, .closeSocket], false)
    | .otherError _ => ([.shutdownSend, .drainReceive], true)
  else ([], false)

/-- The serialized message of `Response::send` (response.cpp lines 117-122):
`fmt::format("{} {}\r\nContent-Length: {:d}\r\n\r\n{}", version_, status_,
contents_.size(), contents_)`. -/
def serializeResponse (v : Version) (st : Status) (body : List Char) :
    List Char :=
  Version.print v ++ (' ' :: (Status.print st ++ (("\r\nContent-Length: ").toList
    ++ (Nat.toDigits 10 body.length ++ (("\r\n\r\n").toList ++ body)))))

/-- Modelled from the spec: the serialization shape
`"{version} {code} {phrase}\r\nContent-Length: {n}\r\n\r\n{body}"` with
`n = len(body)` (spec section 4.4, to be compared with
`serializeResponse`). -/
def specSerializedResponse (v : Version) (st : Status) (body : List Char) :
    List Char :=
  Version.print v ++ (' ' :: (Nat.toDigits 10 st.code ++ (' ' :: (st.phrase
    ++ (("\r\nContent-Length: ").toList ++ (Nat.toDigits 10 body.length
    ++ (("\r\n\r\n").toList ++ body)))))))

/-- Result of `Response::send`: `MessagePartiallySentError` carrying the
missing byte count and the peer address, or success followed by
`helpers::close`. -/
inductive SendResult where
  | messagePartiallySentError (missing : Nat) (remoteAddress : Nat)
  | sentThenClosed (close : List CloseAction × Bool)
deriving Repr, DecidableEq

/-- `Response::send` (response.cpp lines 116-132): `asio::write` the whole
serialized message; when the size reported by the write differs from the
message size, throw `MessagePartiallySentError(message.size() - sent_size,
stream_.remote_endpoint().address())` without closing; otherwise
`helpers::close(stream_)`.  `reported` is what `asio::write` returned and
`addr` the peer address. -/
def Response.send (v : Version) (st : Status) (body : List Char)
    (reported : Nat) (addr : Nat) (isOpen : Bool) (drain : DrainOutcome) :
    SendResult :=
  if reported ≠ (serializeResponse v st body).length then
    .messagePartiallySentError
      ((serializeResponse v st body).length - reported) addr
  else .sentThenClosed (helpersClose isOpen drain)

/-- Claim C4: `send` writes exactly the serialized bytes
`"{version} {code} {phrase}\r\nContent-Length: {n}\r\n\r\n{body}"` with
`n = len(body)`; when the underlying write reports fewer bytes it raises
`MessagePartiallySent` carrying the missing byte count and the peer address;
and on success it performs the graceful close: shut down the send half,
drain the receive half to EOF (EOF being treated as normal), then close. -/
theorem response_send_framing_and_graceful_close (v : Version) (st : Status)
    (body : List Char) (w addr : Nat)
    (hw : w ≤ (serializeResponse v st body).length) :
    serializeResponse v st body = specSerializedResponse v st body
    ∧ (w = (serializeResponse v st body).length →
        Response.send v st body w addr true .eof
          = .sentThenClosed ([.shutdownSend, .drainReceive, .closeSocket], false))
    ∧ (w < (serializeResponse v st body).length →
        Response.send v st body w addr true .eof
          = .messagePartiallySentError
              ((serializeResponse v st body).length - w) addr) := by
  refine ⟨?_, ?_, ?_⟩
  · have hph : uppercase st.phrase = st.phrase := by cases st <;> decide
    unfold serializeResponse specSerializedResponse Status.print
    rw [hph]
    simp [List.append_assoc]
  · intro h
    unfold Response.send
    rw [if_neg (by omega)]
    rfl
  · intro h
    unfold Response.send
    rw [if_pos (by omega)]

/-- Witness for C4 at a concrete response: a complete write is followed by
the graceful close sequence. -/
theorem response_send_witness :
    Response.send .http11 .ok (("Hi").toList)
        (serializeResponse .http11 .ok (("Hi").toList)).length 9 true .eof
      = .sentThenClosed ([.shutdownSend, .drainReceive, .closeSocket], false) :=
  (response_send_framing_and_graceful_close .http11 .ok (("Hi").toList)
      (serializeResponse .http11 .ok (("Hi").toList)).length 9 (le_refl _)).2.1 rfl

/-! ## Body assembly (`Response::add_file`, `requests/response.cpp`
lines 30-74, the default non-ranges build; the inline revision in
`response.hpp` lines 104-131 runs the same loop) -/

/-- The getline delimiter test: characters before the next `'\n'`. -/
def notNewline (c : Char) : Bool :=
  decide (c ≠ '\n')

theorem length_dropWhile_le (p : Char → Bool) (l : List Char) :
    (l.dropWhile p).length ≤ l.length := by
  induction l with
  | nil => simp
  | cons c t ih =>
      rw [List.dropWhile_cons]
      split
      · exact Nat.le_succ_of_le ih
      · exact Nat.le_refl _

/-- The read loop of `Response::add_file`: `while (not file.eof()) { clear;
getline(file, read_content); (contents_ += read_content) += '\n'; }`.
`std::getline` extracts up to the next `'\n'` and consumes the delimiter;
finding no delimiter (including extracting nothing at end of file) sets
`eofbit`, which ends the loop -- after the iteration has already appended the
extracted characters plus `'\n'`. -/
def addFileLoop (acc : List Char) (s : List Char) : List Char :=
  match h : s.dropWhile notNewline with
  | [] => acc ++ s.takeWhile notNewline ++ ['\n']
  | _ :: r => addFileLoop (acc ++ s.takeWhile notNewline ++ ['\n']) r
termination_by s.length
decreasing_by
  have hle := length_dropWhile_le notNewline s
  rw [h] at hle
  simp only [List.length_cons] at hle
  omega

/-- `Response::add_file` on a response whose content is still empty (the
`has_content()` guard panics otherwise): the body bytes produced from the
file contents. -/
def addFileBody (file : List Char) : List Char :=
  addFileLoop [] file

theorem dropWhile_head_false (p : Char → Bool) :
    ∀ (s : List Char) (c : Char) (r : List Char),
      s.dropWhile p = c :: r → p c = false := by
  intro s
  induction s with
  | nil => intro c r h; cases h
  | cons a t ih =>
      intro c r h
      rw [List.dropWhile_cons] at h
      by_cases hp : p a = true
      · rw [if_pos hp] at h
        exact ih c r h
      · rw [if_neg hp] at h
        cases h
        simpa using hp

theorem addFileLoop_nil_case (acc s : List Char)
    (hd : s.dropWhile notNewline = []) :
    addFileLoop acc s = acc ++ s.takeWhile notNewline ++ ['\n'] := by
  unfold addFileLoop
  split
  · rfl
  · next c r heq => rw [hd] at heq; cases heq

theorem addFileLoop_cons_case (acc s : List Char) (c : Char) (r : List Char)
    (hd : s.dropWhile notNewline = c :: r) :
    addFileLoop acc s = addFileLoop (acc ++ s.takeWhile notNewline ++ ['\n']) r := by
  conv_lhs => rw [addFileLoop.eq_def]
  split
  · next heq => rw [hd] at heq; cases heq
  · next c2 r2 heq =>
      rw [hd] at heq
      cases heq
      rfl

theorem addFileLoop_eq :
    ∀ (n : Nat) (s : List Char), s.length ≤ n →
      ∀ acc, addFileLoop acc s = acc ++ s ++ ['\n'] := by
  intro n
  induction n with
  | zero =>
      intro s hs acc
      have hnil : s = [] := List.eq_nil_of_length_eq_zero (by omega)
      subst hnil
      rw [addFileLoop_nil_case acc [] rfl]
      rfl
  | succ m ih =>
      intro s hs acc
      cases hd : s.dropWhile notNewline with
      | nil =>
          rw [addFileLoop_nil_case acc s hd]
          have ht : s.takeWhile notNewline = s := by
            conv_rhs => rw [← List.takeWhile_append_dropWhile (p := notNewline) (l := s)]
            rw [hd]
            simp
          rw [ht]
      | cons c r =>
          have hc : c = '\n' := by
            have := dropWhile_head_false notNewline s c r hd
            simpa [notNewline] using this
          have hsplit : s = s.takeWhile notNewline ++ c :: r := by
            conv_lhs => rw [← List.takeWhile_append_dropWhile (p := notNewline) (l := s)]
            rw [hd]
          have hlen : r.length < s.length := by
            have hle := length_dropWhile_le notNewline s
            rw [hd] at hle
            simp only [List.length_cons] at hle
            omega
          rw [addFileLoop_cons_case acc s c r hd,
            ih r (by omega) (acc ++ s.takeWhile notNewline ++ ['\n'])]
          subst hc
          conv_rhs => rw [hsplit]
          simp

/-- Counterexample for C9: on an empty file the loop still appends one
`'\n'`, so the body is one byte beyond the file contents (and the body built
from the two-byte file `a\n` is the three bytes `a\n\n`). -/
theorem add_file_body_counterexample :
    addFileBody [] = ['\n']
    ∧ addFileBody (("a\n").toList) = ("a\n\n").toList := by
  have h0 : addFileBody [] = ['\n'] := by
    unfold addFileBody
    rw [addFileLoop_eq 0 [] (by simp) []]
    rfl
  have h1 : addFileBody (("a\n").toList) = ("a\n\n").toList := by
    unfold addFileBody
    rw [addFileLoop_eq 2 (("a\n").toList) (by simp) []]
    rfl
  exact ⟨h0, h1⟩

/-- Claim C9 (amended): after `add_file` the body bytes equal the full
contents of the file with exactly one extra `'\n'` appended -- the loop
re-appends `'\n'` after every extracted line, including after the final
getline that fails at end of file.  (The claim as stated, that no bytes
beyond the file contents are added, fails; see the counterexample.) -/
theorem add_file_body_amended (file : List Char) :
    addFileBody file = file ++ ['\n'] := by
  unfold addFileBody
  rw [addFileLoop_eq file.length file (Nat.le_refl _) []]
  rfl

/-! ## Worker loop exception boundary
(`threads/worker.hpp` lines 110-128 and `src/unnamed/part_001` lines 10-32) -/

/-- What one `queue.pop().execute().send()` round observes from the worker's
point of view: the popped job ran to completion, or its handler (or the send)
threw a `std::exception`-derived exception with some payload. -/
inductive JobOutcome where
  | succeeds
  | throwsStdException (e : Nat)
deriving Repr, DecidableEq

/-- How a worker thread body ends: logging the shutdown message after
`QueueClosedException`, logging the error message and breaking
(part_001 only), or letting the exception escape the thread function --
which in C++ terminates the whole process via `std::terminate`. -/
inductive ServeExit where
  | shutdownLogged (id : Nat)
  | errorLogged (id : Nat) (e : Nat)
  | exceptionEscapesThread (e : Nat)
deriving Repr, DecidableEq

/-- Whether the exit lets an exception escape the thread function. -/
def ServeExit.escapes : ServeExit → Bool
  | .exceptionEscapesThread _ => true
  | _ => false

/-- The worker loop of `src/unnamed/part_001` (lines 10-32): catch
`QueueClosedException` (log, break) and catch `std::exception` (log the
error, break); `jobs` is the sequence of pop outcomes the worker observes
before the queue reports closure. -/
def serveWorker001 (id : Nat) : List JobOutcome → ServeExit
  | [] => .shutdownLogged id
  | .succeeds :: rest => serveWorker001 id rest
  | .throwsStdException e :: _ => .errorLogged id e

/-- The worker loop of `threads/worker.hpp` (`Worker::serve`, lines 110-128):
only `QueueClosedException` is caught; any other exception escapes the
thread function. -/
def serveWorkerHpp (id : Nat) : List JobOutcome → ServeExit
  | [] => .shutdownLogged id
  | .succeeds :: rest => serveWorkerHpp id rest
  | .throwsStdException e :: _ => .exceptionEscapesThread e

/-- Counterexample for C8: in the `threads/worker.hpp` revision a handler
exception is not caught at the loop boundary -- it escapes the worker thread
function (in C++, an exception escaping the thread's start function calls
`std::terminate`, taking down the whole process, not just that worker). -/
theorem worker_exception_boundary_counterexample :
    serveWorkerHpp 0 [.throwsStdException 7] = .exceptionEscapesThread 7
    ∧ (serveWorkerHpp 0 [.throwsStdException 7]).escapes = true :=
  ⟨rfl, rfl⟩

/-- Claim C8 (amended): in the `part_001` worker revision, any
`std::exception` escaping a handler is caught at the loop boundary, logged,
and terminates only that worker (no exception ever escapes the thread
function, and a `stepWorker` step of one worker leaves every other worker's
running state untouched); in the `threads/worker.hpp` revision only
`QueueClosedException` is caught, so a handler exception escapes the thread
function. -/
theorem worker_exception_boundary_amended :
    (∀ id jobs, (serveWorker001 id jobs).escapes = false)
    ∧ (∀ id e rest, serveWorker001 id (.throwsStdException e :: rest)
        = .errorLogged id e)
    ∧ (∀ id, serveWorker001 id [] = .shutdownLogged id)
    ∧ (∀ id e rest, serveWorkerHpp id (.throwsStdException e :: rest)
        = .exceptionEscapesThread e) := by
  refine ⟨?_, fun id e rest => rfl, fun id => rfl, fun id e rest => rfl⟩
  intro id jobs
  induction jobs with
  | nil => rfl
  | cons j rest ih =>
      cases j with
      | succeeds => simpa [serveWorker001] using ih
      | throwsStdException e => rfl

end WebServer
